import Mathlib

/-!
# Verification of the 2D analog clock renderer

Shallow embedding of the repository's geometry generators, clock-angle
calculator, glyph builders and resource lifecycle.  The C++ sources compute
in `float`/`double`; the model uses `ℝ`, and the literal `6.28318530718f`
(the decimal printing of 2π used throughout the sources) is taken to denote
2π exactly.  Vertex vectors, which the sources fill with interleaved x,y
floats, are modelled as lists of 2D points, one point per pushed x,y pair.
-/

set_option maxHeartbeats 1000000

namespace Clock2D

noncomputable section

/-- The constant `TAU = 6.28318530718` of the sources, i.e. 2π. -/
def TAU : ℝ := 2 * Real.pi

/-- The lambda `toA` of `main` (all variants): `-TAU*f + TAU*0.25`,
mapping a fraction of a revolution to a hand angle. -/
def toA (f : ℝ) : ℝ := -TAU * f + TAU * 0.25

/-- The per-frame clock decomposition of the first `main.cpp` variant
(lines 262-272): `s = tm_sec` (ticking), `m = tm_min + s/60`,
`h = (tm_hour % 12) + m/60`, and the angles bound at the three hand draw
calls (lines 316-320): the hour hand is drawn with `toA (h/12)`, the
minute hand with `toA (m/60)`, the second hand with `toA (s/60)`.
The triple is `(hour-hand angle, minute-hand angle, second-hand angle)`. -/
def handAngles (hour minute sec : ℕ) : ℝ × ℝ × ℝ :=
  let s : ℝ := (sec : ℝ)
  let m : ℝ := (minute : ℝ) + s / 60
  let h : ℝ := ((hour % 12 : ℕ) : ℝ) + m / 60
  (toA (h / 12), toA (m / 60), toA (s / 60))

/-- `placeAngle` of the second `main.cpp` variant (also `numeralAngle` of
`part_001`/`part_002`): `idx = n % 12; -TAU*(idx/12) + TAU*0.25`. -/
def placeAngle (n : ℕ) : ℝ := -TAU * (((n % 12 : ℕ) : ℝ) / 12) + TAU * 0.25

/-- The numeral angle of the first `main.cpp` variant's numeral loop
(lines 302-305): `t = n * (TAU/12)`. -/
def numeralAngleV1 (n : ℕ) : ℝ := (n : ℝ) * (TAU / 12)

/-- Numeral translation of the `placeAngle`-based variants:
`(cos ang * rNum, sin ang * rNum)` with `rNum = 0.73`. -/
def numeralCenter (n : ℕ) : ℝ × ℝ :=
  (Real.cos (placeAngle n) * 0.73, Real.sin (placeAngle n) * 0.73)

end

/-- C1 counterexample: at local time 03:00:00 the hour hand's angle is not
`angle(s/60)` (the claim's pairing): the code draws the hour hand with
`angle(h/12) = 0`, while `angle(s/60) = π/2`. -/
theorem hour_angle_not_second_fraction :
    (handAngles 3 0 0).1 ≠ toA ((0 : ℝ) / 60) := by
  simp only [handAngles, toA, TAU]
  norm_num
  intro h
  have := Real.pi_ne_zero
  nlinarith [Real.pi_pos]

/-- C1 (amended): the Clock Angle Calculator pairs the hands the other way
round: the hour hand gets `angle(h/12)`, the minute hand `angle(m/60)`,
the second hand `angle(s/60)`, with `s = tm_sec`, `m = tm_min + s/60`,
`h = (tm_hour mod 12) + m/60`. -/
theorem hand_angle_assignment (hour minute sec : ℕ) :
    handAngles hour minute sec =
      (toA ((((hour % 12 : ℕ) : ℝ) + (minute : ℝ) / 60 + (sec : ℝ) / 3600) / 12),
       toA ((((minute : ℝ) + (sec : ℝ) / 60)) / 60),
       toA ((sec : ℝ) / 60)) := by
  simp only [handAngles]
  have h : (((hour % 12 : ℕ) : ℝ) + ((minute : ℝ) + (sec : ℝ) / 60) / 60) / 12 =
      (((hour % 12 : ℕ) : ℝ) + (minute : ℝ) / 60 + (sec : ℝ) / 3600) / 12 := by ring
  rw [h]

/-- C1 witness at 04:05:06. -/
theorem hand_angle_assignment_witness :
    handAngles 4 5 6 =
      (toA ((((4 % 12 : ℕ) : ℝ) + (5 : ℝ) / 60 + (6 : ℝ) / 3600) / 12),
       toA ((((5 : ℝ) + (6 : ℝ) / 60)) / 60),
       toA ((6 : ℝ) / 60)) :=
  hand_angle_assignment 4 5 6

/-- C2: for every fraction `f` in `[0,1)`, `toA f = -2π·f + π/2`;
in particular `toA 0 = π/2` (straight up) and `toA 0.25 = 0`
(straight right): 12 o'clock is at the top, angles advance clockwise. -/
theorem toA_affine (f : ℝ) (h0 : 0 ≤ f) (h1 : f < 1) :
    toA f = -(2 * Real.pi) * f + Real.pi / 2 ∧
    toA 0 = Real.pi / 2 ∧ toA 0.25 = 0 := by
  refine ⟨?_, ?_, ?_⟩ <;> simp only [toA, TAU] <;> ring

/-- C2 witness at `f = 0`. -/
theorem toA_affine_witness :
    toA 0 = -(2 * Real.pi) * 0 + Real.pi / 2 ∧
    toA 0 = Real.pi / 2 ∧ toA 0.25 = 0 :=
  toA_affine 0 (by norm_num) (by norm_num)

/-- C3 (code bug in the first variant): the first `main.cpp` variant places
numeral 3 at angle `3·τ/12 = π/2` (the top), while the claimed placement
`angle((3/12) mod 1)` is `0` (due right); the `placeAngle` used by the other
variants does satisfy the claim at 3 and 12, translating numeral 3 to
`(0.73, 0)` (due right) and numeral 12 to `(0, 0.73)` (top). -/
theorem numeral_placement_v1_mirrored :
    numeralAngleV1 3 = Real.pi / 2 ∧
    toA (Int.fract ((3 : ℝ) / 12)) = 0 ∧
    numeralAngleV1 3 ≠ toA (Int.fract ((3 : ℝ) / 12)) ∧
    placeAngle 3 = toA (Int.fract ((3 : ℝ) / 12)) ∧
    placeAngle 12 = Real.pi / 2 ∧
    numeralCenter 3 = (0.73, 0) ∧
    numeralCenter 12 = (0, 0.73) := by
  have hfract : Int.fract ((3 : ℝ) / 12) = 3 / 12 :=
    Int.fract_eq_self.mpr ⟨by norm_num, by norm_num⟩
  have h1 : numeralAngleV1 3 = Real.pi / 2 := by
    simp only [numeralAngleV1, TAU]; push_cast; ring
  have h2 : toA (Int.fract ((3 : ℝ) / 12)) = 0 := by
    rw [hfract]; simp only [toA, TAU]; ring
  have h4 : placeAngle 3 = 0 := by
    simp only [placeAngle, TAU]; norm_num
  have h5 : placeAngle 12 = Real.pi / 2 := by
    simp only [placeAngle, TAU]; norm_num; ring
  refine ⟨h1, h2, ?_, by rw [h2, h4], h5, ?_, ?_⟩
  · rw [h1, h2]
    intro h
    have := Real.pi_pos
    nlinarith
  · simp [numeralCenter, h4]
  · simp [numeralCenter, h5]

/-! ## Geometry generators (rings, fans, ticks)

`int` parameters are modelled as `ℤ`; the C loops `for(i=0;i<=seg;i++)`
and `for(i=0;i<count;i++)` run `(seg+1).toNat` resp. `count.toNat` times.
At `seg = 0` the source divides by zero (producing non-finite floats); the
model then divides by zero in `ℝ` (producing `0`); no value-level claim is
made at that input, only list shapes. -/

noncomputable section

/-- `genRing` of `main.cpp` (triangle-strip ring): for `i = 0..seg`,
push the inner then the outer vertex at angle `t = i*(TAU/seg)`. -/
def genRing (seg : ℤ) (r0 r1 : ℝ) : List (ℝ × ℝ) :=
  (List.range (seg + 1).toNat).flatMap fun i =>
    [(Real.cos ((i : ℝ) * (TAU / (seg : ℝ))) * r0, Real.sin ((i : ℝ) * (TAU / (seg : ℝ))) * r0),
     (Real.cos ((i : ℝ) * (TAU / (seg : ℝ))) * r1, Real.sin ((i : ℝ) * (TAU / (seg : ℝ))) * r1)]

/-- `genDiscFan` of `main.cpp`: centre vertex, then perimeter vertices for
`i = 0..seg` at angle `t = i*(TAU/seg)`. -/
def genDiscFan (seg : ℤ) : List (ℝ × ℝ) :=
  (0, 0) :: (List.range (seg + 1).toNat).map fun (i : ℕ) =>
    (Real.cos ((i : ℝ) * (TAU / (seg : ℝ))), Real.sin ((i : ℝ) * (TAU / (seg : ℝ))))

/-- `genTicks` of `main.cpp`: for `i = 0..count-1`, push the inner and the
outer end of the radial mark at angle `t = i*(TAU/count)`. -/
def genTicks (count : ℤ) (innerR outerR : ℝ) : List (ℝ × ℝ) :=
  (List.range count.toNat).flatMap fun i =>
    [(Real.cos ((i : ℝ) * (TAU / (count : ℝ))) * innerR,
      Real.sin ((i : ℝ) * (TAU / (count : ℝ))) * innerR),
     (Real.cos ((i : ℝ) * (TAU / (count : ℝ))) * outerR,
      Real.sin ((i : ℝ) * (TAU / (count : ℝ))) * outerR)]

/-- `genRing` of `part_001` (plain triangles, `2.0f*M_PI` written `TAU`):
two triangles per slice between angles `a0 = TAU*(i/seg)` and
`a1 = TAU*((i+1)/seg)`. -/
def genRingTri (seg : ℤ) (r0 r1 : ℝ) : List (ℝ × ℝ) :=
  (List.range seg.toNat).flatMap fun i =>
    [(Real.cos (TAU * ((i : ℝ) / (seg : ℝ))) * r0, Real.sin (TAU * ((i : ℝ) / (seg : ℝ))) * r0),
     (Real.cos (TAU * ((i : ℝ) / (seg : ℝ))) * r1, Real.sin (TAU * ((i : ℝ) / (seg : ℝ))) * r1),
     (Real.cos (TAU * (((i : ℝ) + 1) / (seg : ℝ))) * r1,
      Real.sin (TAU * (((i : ℝ) + 1) / (seg : ℝ))) * r1),
     (Real.cos (TAU * ((i : ℝ) / (seg : ℝ))) * r0, Real.sin (TAU * ((i : ℝ) / (seg : ℝ))) * r0),
     (Real.cos (TAU * (((i : ℝ) + 1) / (seg : ℝ))) * r1,
      Real.sin (TAU * (((i : ℝ) + 1) / (seg : ℝ))) * r1),
     (Real.cos (TAU * (((i : ℝ) + 1) / (seg : ℝ))) * r0,
      Real.sin (TAU * (((i : ℝ) + 1) / (seg : ℝ))) * r0)]

/-- Euclidean distance of a generated vertex from the origin. -/
def ptNorm (p : ℝ × ℝ) : ℝ := Real.sqrt (p.1 ^ 2 + p.2 ^ 2)

end

/-- A vertex on the circle of radius `r` is at distance `|r|` from the origin. -/
theorem ptNorm_scaled (t r : ℝ) : ptNorm (Real.cos t * r, Real.sin t * r) = |r| := by
  have h : (Real.cos t * r) ^ 2 + (Real.sin t * r) ^ 2 =
      (Real.sin t ^ 2 + Real.cos t ^ 2) * r ^ 2 := by ring
  rw [ptNorm, h, Real.sin_sq_add_cos_sq t, one_mul, Real.sqrt_sq_eq_abs]

theorem length_flatMap_const {α β : Type} (l : List α) (f : α → List β) (c : ℕ)
    (h : ∀ a, (f a).length = c) : (l.flatMap f).length = c * l.length := by
  induction l with
  | nil => simp
  | cons a t ih => simp only [List.flatMap_cons, List.length_append, h, ih,
      List.length_cons]; ring

theorem length_range_pairs {β : Type} (f g : ℕ → β) (n : ℕ) :
    ((List.range n).flatMap fun k => [f k, g k]).length = 2 * n := by
  simp [List.length_flatMap, Function.comp_def, List.map_const', List.sum_replicate,
    smul_eq_mul, Nat.mul_comm]

theorem getD_range_pairs {β : Type} (f g : ℕ → β) (d : β) (n : ℕ) :
    ∀ i, i < n →
      ((List.range n).flatMap fun k => [f k, g k]).getD (2 * i) d = f i ∧
      ((List.range n).flatMap fun k => [f k, g k]).getD (2 * i + 1) d = g i := by
  induction n with
  | zero => intro i h; omega
  | succ n ih =>
    intro i hi
    have hlen : ((List.range n).flatMap fun k => [f k, g k]).length = 2 * n :=
      length_range_pairs f g n
    rw [List.range_succ, List.flatMap_append]
    rcases Nat.lt_or_ge i n with h | h
    · have h1 : 2 * i < ((List.range n).flatMap fun k => [f k, g k]).length := by omega
      have h2 : 2 * i + 1 < ((List.range n).flatMap fun k => [f k, g k]).length := by omega
      constructor
      · rw [List.getD_eq_getElem?_getD, List.getElem?_append_left h1,
          ← List.getD_eq_getElem?_getD]
        exact (ih i h).1
      · rw [List.getD_eq_getElem?_getD, List.getElem?_append_left h2,
          ← List.getD_eq_getElem?_getD]
        exact (ih i h).2
    · have h' : i = n := by omega
      subst h'
      constructor
      · rw [List.getD_eq_getElem?_getD, List.getElem?_append_right (by omega), hlen]
        simp
      · rw [List.getD_eq_getElem?_getD, List.getElem?_append_right (by omega), hlen]
        simp

/-- The C6 property: the strip ring has one vertex pair per angular station
`i = 0..seg` with step `TAU/seg` starting at angle 0 (hence exactly `seg`
slices), and every vertex of either ring generator lies at a distance
between `r0` and `r1` from the origin; analogously the triangle-list ring
of `part_001` has `seg` slices of six vertices. -/
def ringSlicesOk (seg : ℤ) (r0 r1 : ℝ) : Prop :=
  (genRing seg r0 r1).length = 2 * (seg.toNat + 1) ∧
  (∀ i : ℕ, i ≤ seg.toNat →
    (genRing seg r0 r1).getD (2 * i) (0, 0) =
      (Real.cos ((i : ℝ) * (TAU / (seg : ℝ))) * r0,
       Real.sin ((i : ℝ) * (TAU / (seg : ℝ))) * r0) ∧
    (genRing seg r0 r1).getD (2 * i + 1) (0, 0) =
      (Real.cos ((i : ℝ) * (TAU / (seg : ℝ))) * r1,
       Real.sin ((i : ℝ) * (TAU / (seg : ℝ))) * r1)) ∧
  (∀ p ∈ genRing seg r0 r1, r0 ≤ ptNorm p ∧ ptNorm p ≤ r1) ∧
  (genRingTri seg r0 r1).length = 6 * seg.toNat ∧
  (∀ p ∈ genRingTri seg r0 r1, r0 ≤ ptNorm p ∧ ptNorm p ≤ r1)

/-- C6: for `seg ≥ 3` and radii `0 ≤ r0 ≤ r1`, both ring generators produce
exactly `seg` angularly even slices (step `TAU/seg` from angle 0) and every
generated vertex lies at distance `d` from the origin with `r0 ≤ d ≤ r1`. -/
theorem ring_slices_within_radii (seg : ℤ) (r0 r1 : ℝ)
    (hseg : 3 ≤ seg) (h0 : 0 ≤ r0) (h01 : r0 ≤ r1) : ringSlicesOk seg r0 r1 := by
  have h1 : 0 ≤ r1 := le_trans h0 h01
  have htn : (seg + 1).toNat = seg.toNat + 1 := by omega
  refine ⟨?_, ?_, ?_, ?_, ?_⟩
  · rw [genRing]
    simp [List.length_flatMap, Function.comp_def, List.map_const', List.sum_replicate,
      smul_eq_mul, htn, Nat.mul_comm]
  · intro i hi
    have hi' : i < (seg + 1).toNat := by omega
    exact getD_range_pairs _ _ (0, 0) ((seg + 1).toNat) i hi'
  · intro p hp
    rw [genRing, List.mem_flatMap] at hp
    obtain ⟨i, -, hp⟩ := hp
    simp only [List.mem_cons, List.mem_singleton, List.not_mem_nil, or_false] at hp
    rcases hp with rfl | rfl
    · rw [ptNorm_scaled, abs_of_nonneg h0]; exact ⟨le_refl r0, h01⟩
    · rw [ptNorm_scaled, abs_of_nonneg h1]; exact ⟨h01, le_refl r1⟩
  · rw [genRingTri]
    simp [List.length_flatMap, Function.comp_def, List.map_const', List.sum_replicate,
      smul_eq_mul, Nat.mul_comm]
  · intro p hp
    rw [genRingTri, List.mem_flatMap] at hp
    obtain ⟨i, -, hp⟩ := hp
    simp only [List.mem_cons, List.mem_singleton, List.not_mem_nil, or_false] at hp
    rcases hp with rfl | rfl | rfl | rfl | rfl | rfl
    all_goals rw [ptNorm_scaled]
    all_goals first
      | (rw [abs_of_nonneg h0]; exact ⟨le_refl r0, h01⟩)
      | (rw [abs_of_nonneg h1]; exact ⟨h01, le_refl r1⟩)

/-- C6 witness at `seg = 4`, `r0 = 1/2`, `r1 = 1`. -/
theorem ring_slices_within_radii_witness : ringSlicesOk 4 (1/2) 1 :=
  ring_slices_within_radii 4 (1/2) 1 (by norm_num) (by norm_num) (by norm_num)

/-- C7 counterexample: at `segments = count = 0` the generators do not take
a consistent choice: `genTicks` produces the empty sequence while `genRing`
and `genDiscFan` produce non-empty ones (and none of them rejects the
input, since the code contains no precondition check). Radii are the
call-site values of `main`. -/
theorem degenerate_input_inconsistent :
    genTicks 0 0.82 0.88 = [] ∧ genRing 0 0.98 0.86 ≠ [] ∧ genDiscFan 0 ≠ [] := by
  refine ⟨by simp [genTicks], ?_, by simp [genDiscFan]⟩
  have h : (0 + 1 : ℤ).toNat = 1 := rfl
  simp [genRing, h, List.range_succ]

/-- The C7 behaviour actually implemented for `segments`/`count ≤ 0`. -/
def degenerateBehavior (seg : ℤ) (r0 r1 rI rO : ℝ) : Prop :=
  genTicks seg rI rO = [] ∧
  (seg < 0 → genRing seg r0 r1 = []) ∧
  (seg < 0 → genDiscFan seg = [(0, 0)]) ∧
  (genRing 0 r0 r1).length = 2 ∧
  (genDiscFan 0).length = 2 ∧
  genDiscFan seg ≠ []

/-- C7 (amended): no generator rejects non-positive input; `genTicks`
returns the empty sequence for `count ≤ 0`, but `genRing` returns empty
only for `seg < 0` and still emits one vertex pair at `seg = 0`, while
`genDiscFan` is never empty (the centre vertex is always pushed, plus one
perimeter vertex at `seg = 0`): the three generators do not take the same
choice. -/
theorem degenerate_input_behavior (seg : ℤ) (r0 r1 rI rO : ℝ) (h : seg ≤ 0) :
    degenerateBehavior seg r0 r1 rI rO := by
  refine ⟨?_, ?_, ?_, ?_, ?_, by simp [genDiscFan]⟩
  · have : seg.toNat = 0 := by omega
    simp [genTicks, this]
  · intro hneg
    have : (seg + 1).toNat = 0 := by omega
    simp [genRing, this]
  · intro hneg
    have : (seg + 1).toNat = 0 := by omega
    simp [genDiscFan, this]
  · have h1 : (0 + 1 : ℤ).toNat = 1 := rfl
    rw [genRing]
    simp [List.length_flatMap, Function.comp_def, List.map_const', List.sum_replicate,
      smul_eq_mul, h1]
  · rw [genDiscFan]
    simp only [List.length_cons, List.length_map, List.length_range]
    rfl

/-- C7 witness at `seg = 0` with the call-site radii of `main`. -/
theorem degenerate_input_behavior_witness : degenerateBehavior 0 0.98 0.86 0.82 0.88 :=
  degenerate_input_behavior 0 0.98 0.86 0.82 0.88 (by norm_num)

/-! ## Hand shapes -/

noncomputable section

/-- Point `i` of the fan vector `genDiscFan(48)` used by the spade hands
(the source reads `fan[i*2+0], fan[i*2+1]`); the default is never hit, as
the loop indices stay in range. -/
def fanPt (i : ℕ) : ℝ × ℝ := (genDiscFan 48).getD i (0, 0)

/-- `genSpadeHour` of the first `main.cpp` variant: stem rectangle
(`w = 0.60`, `L = 0.72`) plus a bulb fan of radius `r = 0.40` centred at
`cy = L + 0.15`, built from triangles over `fan[i]`, `fan[i+1]` for
`i = 1 .. fan.size()/2 - 2`. -/
def genSpadeHour : List (ℝ × ℝ) :=
  [(-(0.5 * 0.60), 0), (0.5 * 0.60, 0), (0.5 * 0.60, 0.72),
   (-(0.5 * 0.60), 0), (0.5 * 0.60, 0.72), (-(0.5 * 0.60), 0.72)] ++
  (List.range' 1 ((genDiscFan 48).length - 2)).flatMap fun i =>
    [(0, 0.72 + 0.15),
     ((fanPt i).1 * 0.40, (fanPt i).2 * 0.40 + (0.72 + 0.15)),
     ((fanPt (i + 1)).1 * 0.40, (fanPt (i + 1)).2 * 0.40 + (0.72 + 0.15))]

/-- `genSecondThin` of the first `main.cpp` variant: one thin rectangle,
`w = 0.12`, `L = 1.00`. -/
def genSecondThin : List (ℝ × ℝ) :=
  [(-(0.5 * 0.12), 0), (0.5 * 0.12, 0), (0.5 * 0.12, 1.00),
   (-(0.5 * 0.12), 0), (0.5 * 0.12, 1.00), (-(0.5 * 0.12), 1.00)]

/-- `genHourHand` of the second `main.cpp` variant: stem (`W = 0.12`,
up to `L - 0.12` with `L = 0.62`), spade bulb of radius `SP_R = 0.14`
centred at `SP_Y = L - 0.08`, and a tail rectangle down to `-TAIL`
with `TAIL = 0.08`. -/
def genHourHand : List (ℝ × ℝ) :=
  [(-(0.5 * 0.12), 0), (0.5 * 0.12, 0), (0.5 * 0.12, 0.62 - 0.12),
   (-(0.5 * 0.12), 0), (0.5 * 0.12, 0.62 - 0.12), (-(0.5 * 0.12), 0.62 - 0.12)] ++
  ((List.range' 1 ((genDiscFan 48).length - 2)).flatMap fun i =>
    [(0, 0.62 - 0.08),
     ((fanPt i).1 * 0.14, (fanPt i).2 * 0.14 + (0.62 - 0.08)),
     ((fanPt (i + 1)).1 * 0.14, (fanPt (i + 1)).2 * 0.14 + (0.62 - 0.08))]) ++
  [(-(0.5 * 0.12), 0), (0.5 * 0.12, 0), (0.5 * 0.12, -0.08),
   (-(0.5 * 0.12), 0), (0.5 * 0.12, -0.08), (-(0.5 * 0.12), 0)]

end

theorem genDiscFan48_length : (genDiscFan 48).length = 50 := by
  rw [genDiscFan]
  simp only [List.length_cons, List.length_map, List.length_range]
  rfl

theorem fanPt_snd_bounds (i : ℕ) : -1 ≤ (fanPt i).2 ∧ (fanPt i).2 ≤ 1 := by
  rw [fanPt, genDiscFan]
  match i with
  | 0 => simp
  | j + 1 =>
    rw [List.getD_cons_succ, List.getD_eq_getElem?_getD, List.getElem?_map]
    rcases Nat.lt_or_ge j ((48 + 1 : ℤ).toNat) with hj | hj
    · rw [List.getElem?_range hj]
      exact ⟨Real.neg_one_le_sin _, Real.sin_le_one _⟩
    · rw [List.getElem?_eq_none (by simpa using hj)]
      simp

theorem fanPt_13 : fanPt 13 = (0, 1) := by
  rw [fanPt, genDiscFan, List.getD_cons_succ, List.getD_eq_getElem?_getD,
    List.getElem?_map, List.getElem?_range (by norm_num)]
  have harg : (12 : ℝ) * (TAU / ((48 : ℤ) : ℝ)) = Real.pi / 2 := by
    rw [TAU]; push_cast; ring
  simp only [Option.map_some', Option.getD_some, Nat.cast_ofNat, harg]
  rw [Real.cos_pi_div_two, Real.sin_pi_div_two]

/-- The bulb-top vertex of the spade hour hand: fan point 13 is at angle
`12·(TAU/48) = π/2`, so the bulb triangle for `i = 13` contains the vertex
`(0·0.40, 1·0.40 + 0.87) = (0, 1.27)`. -/
theorem spade_bulb_top_mem : ((0 : ℝ), 1.27) ∈ genSpadeHour := by
  rw [genSpadeHour]
  apply List.mem_append_right
  rw [List.mem_flatMap]
  refine ⟨13, ?_, ?_⟩
  · rw [genDiscFan48_length]
    exact List.mem_range'.mpr ⟨12, by norm_num, by norm_num⟩
  · rw [fanPt_13]
    refine List.mem_cons.mpr (Or.inr (List.mem_cons.mpr (Or.inl ?_)))
    norm_num

/-- C4 counterexample: the spade hour hand of the first variant contains the
bulb-top vertex `(0, 1.27)` (bulb centre `0.87` plus radius `0.40`), whose
y-coordinate exceeds `1.0`, so its maximum reach is not a constant `≤ 1.0`. -/
theorem spade_hour_reach_exceeds_one :
    ((0 : ℝ), 1.27) ∈ genSpadeHour ∧ (1 : ℝ) < 1.27 :=
  ⟨spade_bulb_top_mem, by norm_num⟩

/-- The C4 property as the code realises it: each cited hand generator is a
triangle list with the pivot on its baseline, and its vertices' y-coordinates
stay within a fixed per-kind band: `[0, 1.27]` for the spade hour hand
(the bulb top exceeds 1.0), `[0, 1.00]` for the thin second hand, and
`[-0.08, 0.68]` for the second variant's hour hand; the extreme reach is
attained. -/
def handShapesOk : Prop :=
  (genSpadeHour.length = 150 ∧ genSpadeHour.length % 3 = 0 ∧
    (∀ p ∈ genSpadeHour, 0 ≤ p.2 ∧ p.2 ≤ 1.27) ∧
    ((-(0.5 * 0.60) : ℝ), (0 : ℝ)) ∈ genSpadeHour ∧
    ((0 : ℝ), (1.27 : ℝ)) ∈ genSpadeHour) ∧
  (genSecondThin.length = 6 ∧ genSecondThin.length % 3 = 0 ∧
    (∀ p ∈ genSecondThin, 0 ≤ p.2 ∧ p.2 ≤ 1) ∧
    ((-(0.5 * 0.12) : ℝ), (0 : ℝ)) ∈ genSecondThin ∧
    ((0.5 * 0.12 : ℝ), (1.00 : ℝ)) ∈ genSecondThin) ∧
  (genHourHand.length = 156 ∧ genHourHand.length % 3 = 0 ∧
    (∀ p ∈ genHourHand, -0.08 ≤ p.2 ∧ p.2 ≤ 0.68) ∧
    ((-(0.5 * 0.12) : ℝ), (0 : ℝ)) ∈ genHourHand)

/-- C4 (amended): each cited hand-shape generator returns a closed triangle
list (vertex count divisible by 3) pointing in local +Y with the pivot at
y = 0; every vertex's y-coordinate is at most the hand's fixed per-kind
maximum reach, which is 1.00 for the thin second hand and 0.68 for the
second variant's hour hand (both ≤ 1.0), but 1.27 for the spade hour hand
of the first variant. -/
theorem hand_shapes_bounded : handShapesOk := by
  have hb := fanPt_snd_bounds
  refine ⟨⟨?_, ?_, ?_, ?_, spade_bulb_top_mem⟩,
    ⟨rfl, by rfl, ?_, ?_, ?_⟩, ⟨?_, ?_, ?_, ?_⟩⟩
  · rw [genSpadeHour]
    simp [genDiscFan48_length, List.length_flatMap, Function.comp_def, List.map_const',
      List.sum_replicate, smul_eq_mul, List.length_range']
  · rw [genSpadeHour]
    simp [genDiscFan48_length, List.length_flatMap, Function.comp_def, List.map_const',
      List.sum_replicate, smul_eq_mul, List.length_range']
  · intro p hp
    rw [genSpadeHour, List.mem_append] at hp
    rcases hp with hp | hp
    · simp only [List.mem_cons, List.not_mem_nil, or_false] at hp
      rcases hp with rfl | rfl | rfl | rfl | rfl | rfl <;> norm_num
    · rw [List.mem_flatMap] at hp
      obtain ⟨i, -, hp⟩ := hp
      simp only [List.mem_cons, List.not_mem_nil, or_false] at hp
      rcases hp with rfl | rfl | rfl
      · norm_num
      · have := hb i
        constructor <;> [nlinarith [this.1]; nlinarith [this.2]]
      · have := hb (i + 1)
        constructor <;> [nlinarith [this.1]; nlinarith [this.2]]
  · rw [genSpadeHour]
    apply List.mem_append_left
    norm_num
  · intro p hp
    simp only [genSecondThin, List.mem_cons, List.not_mem_nil, or_false] at hp
    rcases hp with rfl | rfl | rfl | rfl | rfl | rfl <;> norm_num
  · simp [genSecondThin]
  · simp only [genSecondThin, List.mem_cons]
    norm_num
  · rw [genHourHand]
    simp [genDiscFan48_length, List.length_flatMap, Function.comp_def, List.map_const',
      List.sum_replicate, smul_eq_mul, List.length_range']
  · rw [genHourHand]
    simp [genDiscFan48_length, List.length_flatMap, Function.comp_def, List.map_const',
      List.sum_replicate, smul_eq_mul, List.length_range']
  · intro p hp
    rw [genHourHand, List.mem_append, List.mem_append] at hp
    rcases hp with (hp | hp) | hp
    · simp only [List.mem_cons, List.not_mem_nil, or_false] at hp
      rcases hp with rfl | rfl | rfl | rfl | rfl | rfl <;> norm_num
    · rw [List.mem_flatMap] at hp
      obtain ⟨i, -, hp⟩ := hp
      simp only [List.mem_cons, List.not_mem_nil, or_false] at hp
      rcases hp with rfl | rfl | rfl
      · norm_num
      · have := hb i
        constructor <;> [nlinarith [this.1]; nlinarith [this.2]]
      · have := hb (i + 1)
        constructor <;> [nlinarith [this.1]; nlinarith [this.2]]
    · simp only [List.mem_cons, List.not_mem_nil, or_false] at hp
      rcases hp with rfl | rfl | rfl | rfl | rfl | rfl <;> norm_num
  · rw [genHourHand]
    apply List.mem_append_left
    apply List.mem_append_left
    norm_num

/-! ## Digit glyphs and numeral composition

The stroke digits (first `main.cpp` variant) and the block digits
(`part_001`) use only rational constants and are modelled over `ℚ`; the
filled seven-segment digits (second `main.cpp` variant) normalise a
direction with `sqrt` and are modelled over `ℝ`. -/

namespace Stroke

/-- Segment grid of the stroke digits: `X0=-0.40, X1=0.40, Y0=-0.50,
Y1=0.50, Ym=0`. -/
def X0 : ℚ := -0.40

def X1 : ℚ := 0.40

def Y0 : ℚ := -0.50

def Y1 : ℚ := 0.50

def Ym : ℚ := 0

/-- `addSeg`: push the two endpoints of one line segment. -/
def addSeg (x1 y1 x2 y2 : ℚ) : List (ℚ × ℚ) := [(x1, y1), (x2, y2)]

/-- Segment A (top). -/
def segA : List (ℚ × ℚ) := addSeg X0 Y1 X1 Y1

/-- Segment B (upper right). -/
def segB : List (ℚ × ℚ) := addSeg X1 Y1 X1 Ym

/-- Segment C (lower right). -/
def segC : List (ℚ × ℚ) := addSeg X1 Ym X1 Y0

/-- Segment D (bottom). -/
def segD : List (ℚ × ℚ) := addSeg X0 Y0 X1 Y0

/-- Segment E (lower left). -/
def segE : List (ℚ × ℚ) := addSeg X0 Ym X0 Y0

/-- Segment F (upper left). -/
def segF : List (ℚ × ℚ) := addSeg X0 Y1 X0 Ym

/-- Segment G (middle). -/
def segG : List (ℚ × ℚ) := addSeg X0 Ym X1 Ym

/-- `genDigitLines` of the first `main.cpp` variant: the seven-segment
switch; the switch has no default case after `v.clear()`, so an unknown
digit yields the empty vector. -/
def genDigitLines (d : ℤ) : List (ℚ × ℚ) :=
  if d = 0 then segA ++ segB ++ segC ++ segD ++ segE ++ segF
  else if d = 1 then segB ++ segC
  else if d = 2 then segA ++ segB ++ segG ++ segE ++ segD
  else if d = 3 then segA ++ segB ++ segG ++ segC ++ segD
  else if d = 4 then segF ++ segG ++ segB ++ segC
  else if d = 5 then segA ++ segF ++ segG ++ segC ++ segD
  else if d = 6 then segA ++ segF ++ segG ++ segE ++ segD ++ segC
  else if d = 7 then segA ++ segB ++ segC
  else if d = 8 then segA ++ segB ++ segC ++ segD ++ segE ++ segF ++ segG
  else if d = 9 then segA ++ segB ++ segC ++ segD ++ segF ++ segG
  else []

/-- The inter-digit spacing constant `gap = 0.20` of `buildNumerals`. -/
def gap : ℚ := 0.20

/-- Vertex list of numeral `n` as built by `buildNumerals` (first
variant): a single digit glyph for `n < 10`; otherwise the tens digit
shifted by `-0.6 - gap` and the ones digit shifted by `+0.6 + gap`. -/
def numeralVerts (n : ℤ) : List (ℚ × ℚ) :=
  if n < 10 then genDigitLines n
  else
    (genDigitLines (n / 10)).map (fun p => (p.1 - 0.6 - gap, p.2)) ++
    (genDigitLines (n % 10)).map (fun p => (p.1 + 0.6 + gap, p.2))

/-- Follows the spec's words, for comparison with `numeralVerts`:
two-digit composition with `offset = half the glyph width + gap`, the
glyph cell spanning `X0..X1` so that its half-width is
`(X1 - X0)/2 = 0.40`. -/
def specNumeralVerts (n : ℤ) : List (ℚ × ℚ) :=
  (genDigitLines (n / 10)).map (fun p => (p.1 - ((X1 - X0) / 2 + gap), p.2)) ++
  (genDigitLines (n % 10)).map (fun p => (p.1 + ((X1 - X0) / 2 + gap), p.2))

end Stroke

namespace Filled

/-- Segment grid of the filled digits: `X0=-0.45, X1=0.45, Y0=-0.60,
Y1=0.60, Ym=0`. -/
def X0 : ℝ := -0.45

def X1 : ℝ := 0.45

def Y0 : ℝ := -0.60

def Y1 : ℝ := 0.60

def Ym : ℝ := 0

noncomputable section

/-- `addQuad` of the second `main.cpp` variant: a thick segment from
`(x1,y1)` to `(x2,y2)` as two triangles, offset perpendicular by `t/2`;
a zero-length segment is skipped. -/
def addQuad (x1 y1 x2 y2 t : ℝ) : List (ℝ × ℝ) :=
  let dx := x2 - x1
  let dy := y2 - y1
  let len := Real.sqrt (dx * dx + dy * dy)
  if len = 0 then []
  else
    let px := -(dy / len) * (t * 0.5)
    let py := (dx / len) * (t * 0.5)
    [(x1 + px, y1 + py), (x2 + px, y2 + py), (x2 - px, y2 - py),
     (x1 + px, y1 + py), (x2 - px, y2 - py), (x1 - px, y1 - py)]

/-- Filled segment A (top). -/
def quadA (t : ℝ) : List (ℝ × ℝ) := addQuad X0 Y1 X1 Y1 t

/-- Filled segment B (upper right). -/
def quadB (t : ℝ) : List (ℝ × ℝ) := addQuad X1 Y1 X1 Ym t

/-- Filled segment C (lower right). -/
def quadC (t : ℝ) : List (ℝ × ℝ) := addQuad X1 Ym X1 Y0 t

/-- Filled segment D (bottom). -/
def quadD (t : ℝ) : List (ℝ × ℝ) := addQuad X0 Y0 X1 Y0 t

/-- Filled segment E (lower left). -/
def quadE (t : ℝ) : List (ℝ × ℝ) := addQuad X0 Ym X0 Y0 t

/-- Filled segment F (upper left). -/
def quadF (t : ℝ) : List (ℝ × ℝ) := addQuad X0 Y1 X0 Ym t

/-- Filled segment G (middle). -/
def quadG (t : ℝ) : List (ℝ × ℝ) := addQuad X0 Ym X1 Ym t

/-- `genDigitFilled` of the second `main.cpp` variant: the same
seven-segment switch with thick quads; no default case after
`v.clear()`, so an unknown digit yields the empty vector. -/
def genDigitFilled (d : ℤ) (t : ℝ) : List (ℝ × ℝ) :=
  if d = 0 then quadA t ++ quadB t ++ quadC t ++ quadD t ++ quadE t ++ quadF t
  else if d = 1 then quadB t ++ quadC t
  else if d = 2 then quadA t ++ quadB t ++ quadG t ++ quadE t ++ quadD t
  else if d = 3 then quadA t ++ quadB t ++ quadG t ++ quadC t ++ quadD t
  else if d = 4 then quadF t ++ quadG t ++ quadB t ++ quadC t
  else if d = 5 then quadA t ++ quadF t ++ quadG t ++ quadC t ++ quadD t
  else if d = 6 then quadA t ++ quadF t ++ quadG t ++ quadE t ++ quadD t ++ quadC t
  else if d = 7 then quadA t ++ quadB t ++ quadC t
  else if d = 8 then
    quadA t ++ quadB t ++ quadC t ++ quadD t ++ quadE t ++ quadF t ++ quadG t
  else if d = 9 then quadA t ++ quadB t ++ quadC t ++ quadD t ++ quadF t ++ quadG t
  else []

end

end Filled

namespace Blocks

/-- `addTri` of `part_001`: push one triangle. -/
def addTri (x1 y1 x2 y2 x3 y3 : ℚ) : List (ℚ × ℚ) := [(x1, y1), (x2, y2), (x3, y3)]

/-- `addBox` of `part_001`: an axis-aligned rectangle as two triangles. -/
def addBox (x0 y0 x1 y1 : ℚ) : List (ℚ × ℚ) :=
  addTri x0 y0 x1 y0 x1 y1 ++ addTri x0 y0 x1 y1 x0 y1

/-- `genDigitMesh` of `part_001`: filled block digits in `[-0.5,0.5]²`;
the switch has no default case after `v.clear()`, so an unknown digit
yields the empty vector. -/
def genDigitMesh (d : ℤ) : List (ℚ × ℚ) :=
  if d = 0 then
    addBox (-0.45) 0.35 0.45 0.55 ++ addBox (-0.45) (-0.55) 0.45 (-0.35) ++
    addBox (-0.45) (-0.55) (-0.25) 0.55 ++ addBox 0.25 (-0.55) 0.45 0.55
  else if d = 1 then addBox 0.10 (-0.55) 0.30 0.55
  else if d = 2 then
    addBox (-0.45) 0.35 0.45 0.55 ++ addBox 0.25 0.15 0.45 0.35 ++
    addBox (-0.45) (-0.05) 0.45 0.15 ++ addBox (-0.45) (-0.55) (-0.25) (-0.35) ++
    addBox (-0.45) (-0.55) 0.45 (-0.35)
  else if d = 3 then
    addBox (-0.45) 0.35 0.45 0.55 ++ addBox 0.25 0.15 0.45 0.35 ++
    addBox (-0.45) (-0.05) 0.45 0.15 ++ addBox 0.25 (-0.35) 0.45 (-0.15) ++
    addBox (-0.45) (-0.55) 0.45 (-0.35)
  else if d = 4 then
    addBox (-0.45) 0.05 (-0.25) 0.55 ++ addBox 0.25 0.05 0.45 0.55 ++
    addBox (-0.45) (-0.05) 0.45 0.15 ++ addBox 0.25 (-0.55) 0.45 (-0.05)
  else if d = 5 then
    addBox (-0.45) 0.35 0.45 0.55 ++ addBox (-0.45) 0.15 (-0.25) 0.35 ++
    addBox (-0.45) (-0.05) 0.45 0.15 ++ addBox 0.25 (-0.35) 0.45 (-0.15) ++
    addBox (-0.45) (-0.55) 0.45 (-0.35)
  else if d = 6 then
    addBox (-0.45) 0.35 0.45 0.55 ++ addBox (-0.45) (-0.05) (-0.25) 0.35 ++
    addBox (-0.45) (-0.05) 0.45 0.15 ++ addBox 0.25 (-0.35) 0.45 (-0.15) ++
    addBox (-0.45) (-0.55) 0.45 (-0.35) ++ addBox (-0.45) (-0.35) (-0.25) (-0.15)
  else if d = 7 then
    addBox (-0.45) 0.35 0.45 0.55 ++ addBox 0.25 (-0.55) 0.45 0.35
  else if d = 8 then
    addBox (-0.45) 0.35 0.45 0.55 ++ addBox (-0.45) (-0.05) 0.45 0.15 ++
    addBox (-0.45) (-0.55) 0.45 (-0.35) ++ addBox (-0.45) (-0.55) (-0.25) 0.55 ++
    addBox 0.25 (-0.55) 0.45 0.55
  else if d = 9 then
    addBox (-0.45) 0.35 0.45 0.55 ++ addBox (-0.45) 0.15 (-0.25) 0.55 ++
    addBox (-0.45) (-0.05) 0.45 0.15 ++ addBox 0.25 (-0.55) 0.45 (-0.15)
  else []

end Blocks

/-- Every stroke-digit vertex sits on one of the two glyph columns
`X0 = -0.40` or `X1 = 0.40`. -/
theorem stroke_digit_x_cols (d : ℤ) :
    ∀ p ∈ Stroke.genDigitLines d, p.1 = Stroke.X0 ∨ p.1 = Stroke.X1 := by
  unfold Stroke.genDigitLines
  split_ifs <;>
    simp [Stroke.segA, Stroke.segB, Stroke.segC, Stroke.segD, Stroke.segE,
      Stroke.segF, Stroke.segG, Stroke.addSeg, List.forall_mem_append,
      List.forall_mem_cons]

/-- C5 counterexample: for numeral 10 the composed mesh of `buildNumerals`
(first variant) differs from the spec's composition with
`offset = half the glyph width (0.40) + gap (0.20)`: the code shifts by
`0.6 + gap = 0.8`, not by `0.6`. -/
theorem two_digit_offset_cex : Stroke.numeralVerts 10 ≠ Stroke.specNumeralVerts 10 := by
  have e0 : (10 : ℤ) / 10 = 1 := by norm_num
  have e1 : Stroke.genDigitLines 1 = Stroke.segB ++ Stroke.segC := by
    simp [Stroke.genDigitLines]
  intro h
  rw [Stroke.numeralVerts, if_neg (by omega), Stroke.specNumeralVerts, e0, e1] at h
  have h0 := congrArg (fun l => (l.getD 0 (0, 0)).1) h
  simp only [Stroke.segB, Stroke.segC, Stroke.addSeg, List.cons_append, List.nil_append,
    List.map_cons, List.getD_cons_zero] at h0
  rw [Stroke.X0, Stroke.X1, Stroke.gap] at h0
  norm_num at h0

/-- The C5 layout as realised by `buildNumerals` (first variant) for the
two-digit numerals 10, 11, 12: both digit copies are translated by the same
fixed offset `0.6 + gap = 0.8`; all tens-glyph vertices have `x ≤ -0.4` and
all ones-glyph vertices have `x ≥ 0.4` (so the bounding boxes do not
overlap), and the two translation centres are `2·(0.6 + gap) = 1.6`
apart. -/
def twoDigitOk (n : ℤ) : Prop :=
  Stroke.numeralVerts n =
    (Stroke.genDigitLines (n / 10)).map (fun p => (p.1 - 0.6 - Stroke.gap, p.2)) ++
    (Stroke.genDigitLines (n % 10)).map (fun p => (p.1 + 0.6 + Stroke.gap, p.2)) ∧
  (∀ p ∈ (Stroke.genDigitLines (n / 10)).map
      (fun p => (p.1 - 0.6 - Stroke.gap, p.2)), p.1 ≤ -0.4) ∧
  (∀ p ∈ (Stroke.genDigitLines (n % 10)).map
      (fun p => (p.1 + 0.6 + Stroke.gap, p.2)), 0.4 ≤ p.1) ∧
  ((0.6 + Stroke.gap) + (0.6 + Stroke.gap) : ℚ) = 1.6

/-- C5 (amended): for every two-digit numeral (10, 11, 12) the first
variant's `buildNumerals` translates the tens glyph left and the ones glyph
right by the same offset `0.6 + gap = 0.8` (a fixed constant, not half the
glyph width `0.4` plus the gap); the two glyph bounding boxes do not
overlap, and the translation centres are exactly `2·(0.6 + gap)` apart. -/
theorem two_digit_layout (n : ℤ) (h1 : 10 ≤ n) (h2 : n ≤ 12) : twoDigitOk n := by
  refine ⟨?_, ?_, ?_, by rw [Stroke.gap]; norm_num⟩
  · rw [Stroke.numeralVerts, if_neg (by omega)]
  · intro p hp
    rw [List.mem_map] at hp
    obtain ⟨a, ha, rfl⟩ := hp
    rcases stroke_digit_x_cols _ a ha with h | h <;>
      rw [h, Stroke.gap] <;> simp only [Stroke.X0, Stroke.X1] <;> norm_num
  · intro p hp
    rw [List.mem_map] at hp
    obtain ⟨a, ha, rfl⟩ := hp
    rcases stroke_digit_x_cols _ a ha with h | h <;>
      rw [h, Stroke.gap] <;> simp only [Stroke.X0, Stroke.X1] <;> norm_num

/-- C5 witness at `n = 10`. -/
theorem two_digit_layout_witness : twoDigitOk 10 :=
  two_digit_layout 10 (by norm_num) (by norm_num)

/-- The C10 property: a digit value outside `0..9` yields the empty,
invisible glyph in all three digit-glyph generators. -/
def outOfRangeEmpty (d : ℤ) (t : ℝ) : Prop :=
  Stroke.genDigitLines d = [] ∧ Filled.genDigitFilled d t = [] ∧ Blocks.genDigitMesh d = []

/-- C10: for every digit value `d` outside `0..9` (and any thickness `t`),
the stroke, filled seven-segment and block digit generators all return the
empty vertex list: the selection switch has no default case after clearing
the output. -/
theorem digit_out_of_range_empty (d : ℤ) (t : ℝ) (h : d < 0 ∨ 9 < d) :
    outOfRangeEmpty d t := by
  refine ⟨?_, ?_, ?_⟩ <;>
    simp only [Stroke.genDigitLines, Filled.genDigitFilled, Blocks.genDigitMesh] <;>
    split_ifs <;> first | rfl | omega

/-- C10 witness at `d = 10` with the call-site thickness `t = 0.22`. -/
theorem digit_out_of_range_empty_witness : outOfRangeEmpty 10 0.22 :=
  digit_out_of_range_empty 10 0.22 (Or.inr (by norm_num))

/-! ## Mesh resource lifecycle

`struct Mesh` holds the GL handles `vao`, `vbo` (plus vertex count and
mode); `Mesh::destroy` deletes the non-zero handles and zeroes both.
`main`'s control flow is abstracted as the sequence of create/draw/destroy
events it performs for `k` loop iterations before the window-close check
ends the loop. -/

/-- The GL mesh wrapper of `main.cpp`: `vao`, `vbo`, vertex count and
primitive mode (GL handles and enums are unsigned integers). -/
structure Mesh where
  vao : ℕ
  vbo : ℕ
  count : ℕ
  mode : ℕ

/-- A GL delete call issued by `Mesh::destroy`. -/
inductive GLDelete : Type
  | deleteBuffers (id : ℕ)
  | deleteVertexArrays (id : ℕ)
deriving DecidableEq

/-- `Mesh::destroy`: `if(vbo) glDeleteBuffers(1,&vbo); if(vao)
glDeleteVertexArrays(1,&vao); vao = vbo = 0;` — returns the delete calls
issued and the updated struct. -/
def Mesh.destroy (m : Mesh) : List GLDelete × Mesh :=
  ((if m.vbo ≠ 0 then [GLDelete.deleteBuffers m.vbo] else []) ++
   (if m.vao ≠ 0 then [GLDelete.deleteVertexArrays m.vao] else []),
   { m with vao := 0, vbo := 0 })

/-- C9: `Mesh::destroy` is idempotent: after a first call both handles are
zero, so a second call issues no delete call and leaves the state
unchanged (`destroy ∘ destroy = destroy`). -/
theorem mesh_destroy_idempotent (m : Mesh) :
    (m.destroy.2).vao = 0 ∧ (m.destroy.2).vbo = 0 ∧
    (m.destroy.2).destroy.2 = m.destroy.2 ∧
    (m.destroy.2).destroy.1 = [] := by
  simp [Mesh.destroy]

/-- C9 witness at a concrete mesh with handles `vao = 3`, `vbo = 5`. -/
theorem mesh_destroy_idempotent_witness :
    ((Mesh.mk 3 5 6 4).destroy.2).vao = 0 ∧ ((Mesh.mk 3 5 6 4).destroy.2).vbo = 0 ∧
    ((Mesh.mk 3 5 6 4).destroy.2).destroy.2 = (Mesh.mk 3 5 6 4).destroy.2 ∧
    ((Mesh.mk 3 5 6 4).destroy.2).destroy.1 = [] :=
  mesh_destroy_idempotent (Mesh.mk 3 5 6 4)

/-- The meshes created by `main` of the first `main.cpp` variant. -/
inductive MeshId : Type
  | bezel | dial | chap | minTicks | hrTicks
  | hourHand | minHand | secHand | cap
  | numeral (n : ℕ)
deriving DecidableEq

/-- One observable action of `main` on the mesh ledger. -/
inductive GfxEvent : Type
  | create (m : MeshId)
  | draw (m : MeshId)
  | destroy (m : MeshId)
  | deleteProgram
  | destroyWindow
deriving DecidableEq

/-- The nine uniquely named meshes, in creation order. -/
def baseIds : List MeshId :=
  [.bezel, .dial, .chap, .minTicks, .hrTicks, .hourHand, .minHand, .secHand, .cap]

/-- All meshes created at startup: the nine named ones, then the numerals
`1..12` built by `buildNumerals`. -/
def createdIds : List MeshId := baseIds ++ (List.range' 1 12).map MeshId.numeral

/-- Startup: every mesh is created (uploaded) once, in order. -/
def createEvents : List GfxEvent := createdIds.map GfxEvent.create

/-- One frame: draw bezel, dial, chapter ring, minute ticks, hour ticks,
the numerals 1..12, then the hour, minute and second hands and the cap. -/
def frameEvents : List GfxEvent :=
  [.draw .bezel, .draw .dial, .draw .chap, .draw .minTicks, .draw .hrTicks] ++
  (List.range' 1 12).map (fun n => GfxEvent.draw (MeshId.numeral n)) ++
  [.draw .hourHand, .draw .minHand, .draw .secHand, .draw .cap]

/-- Teardown destroys, in source order: numerals 1..12, then cap, second,
minute, hour hands, hour ticks, minute ticks, chapter ring, dial, bezel. -/
def destroyEvents : List GfxEvent :=
  (List.range' 1 12).map (fun n => GfxEvent.destroy (MeshId.numeral n)) ++
  [.destroy .cap, .destroy .secHand, .destroy .minHand, .destroy .hourHand,
   .destroy .hrTicks, .destroy .minTicks, .destroy .chap, .destroy .dial, .destroy .bezel]

/-- The event trace of a run of `main` whose frame loop executes `k`
iterations and then exits via the window-close request: creation, `k`
frames, all mesh destroys, `glDeleteProgram`, `glfwDestroyWindow`. -/
def mainTrace (k : ℕ) : List GfxEvent :=
  createEvents ++ (List.range k).flatMap (fun _ => frameEvents) ++
    (destroyEvents ++ [GfxEvent.deleteProgram, GfxEvent.destroyWindow])

/-- Ledger checker: walks a trace with the set of already destroyed meshes
and fails on a draw of a destroyed mesh or on a second destroy. -/
def lifecycleRun : List MeshId → List GfxEvent → Bool
  | _, [] => true
  | dead, GfxEvent.draw m :: es => !dead.contains m && lifecycleRun dead es
  | dead, GfxEvent.destroy m :: es => !dead.contains m && lifecycleRun (m :: dead) es
  | dead, _ :: es => lifecycleRun dead es

theorem lifecycleRun_create (r : List GfxEvent) :
    lifecycleRun [] (createEvents ++ r) = lifecycleRun [] r := rfl

theorem lifecycleRun_frame (r : List GfxEvent) :
    lifecycleRun [] (frameEvents ++ r) = lifecycleRun [] r := rfl

theorem lifecycleRun_block (k : ℕ) :
    ∀ r, lifecycleRun [] ((List.range k).flatMap (fun _ => frameEvents) ++ r) =
      lifecycleRun [] r := by
  induction k with
  | zero => intro r; rfl
  | succ n ih =>
    intro r
    rw [List.range_succ, List.flatMap_append]
    simp only [List.flatMap_cons, List.flatMap_nil, List.append_nil, List.append_assoc]
    rw [ih (frameEvents ++ r)]
    exact lifecycleRun_frame r

theorem mem_block_frame {k : ℕ} {e : GfxEvent}
    (h : e ∈ (List.range k).flatMap (fun _ => frameEvents)) : e ∈ frameEvents := by
  rw [List.mem_flatMap] at h
  obtain ⟨i, -, h⟩ := h
  exact h

theorem destroy_count_one : ∀ m ∈ createdIds,
    destroyEvents.count (GfxEvent.destroy m) = 1 := by decide

/-- The C8 property of the trace of a `k`-frame run. -/
def lifecycleSpec (k : ℕ) : Prop :=
  (∀ m : MeshId, GfxEvent.create m ∈ mainTrace k →
      (mainTrace k).count (GfxEvent.destroy m) = 1) ∧
  lifecycleRun [] (mainTrace k) = true ∧
  (∀ e ∈ createEvents ++ (List.range k).flatMap (fun _ => frameEvents),
      (∀ m : MeshId, e ≠ GfxEvent.destroy m) ∧
      e ≠ GfxEvent.deleteProgram ∧ e ≠ GfxEvent.destroyWindow) ∧
  (∀ e ∈ destroyEvents, ∃ m : MeshId, e = GfxEvent.destroy m) ∧
  mainTrace k =
    (createEvents ++ (List.range k).flatMap (fun _ => frameEvents)) ++
      (destroyEvents ++ [GfxEvent.deleteProgram, GfxEvent.destroyWindow])

/-- C8: in every run that exits the frame loop via a window-close request
(after any number `k` of frames), every mesh created at startup is
destroyed exactly once and never drawn after its destruction (the ledger
checker accepts the trace), and teardown is ordered: the part of the trace
before the teardown suffix contains no destroy, program-delete or
window-destroy event, and the suffix is all mesh destroys followed by the
program delete and then the window destroy. -/
theorem mesh_lifecycle (k : ℕ) : lifecycleSpec k := by
  refine ⟨?_, ?_, ?_, ?_, rfl⟩
  · intro m hm
    have hmem : m ∈ createdIds := by
      rw [mainTrace] at hm
      simp only [List.mem_append] at hm
      rcases hm with (hm | hm) | hm | hm
      · simpa [createEvents] using hm
      · have := mem_block_frame hm
        simp [frameEvents] at this
      · simp [destroyEvents] at hm
      · simp at hm
    rw [mainTrace]
    rw [List.count_append, List.count_append, List.count_append]
    have hc : createEvents.count (GfxEvent.destroy m) = 0 :=
      List.count_eq_zero.mpr (by simp [createEvents])
    have hf : ((List.range k).flatMap (fun _ => frameEvents)).count
        (GfxEvent.destroy m) = 0 :=
      List.count_eq_zero.mpr (fun h => by simpa [frameEvents] using mem_block_frame h)
    have ht : ([GfxEvent.deleteProgram, GfxEvent.destroyWindow]).count
        (GfxEvent.destroy m) = 0 := by simp
    rw [hc, hf, ht, destroy_count_one m hmem]
  · rw [mainTrace, List.append_assoc, lifecycleRun_create, lifecycleRun_block]
    decide
  · intro e he
    rw [List.mem_append] at he
    rcases he with he | he
    · simp only [createEvents, List.mem_map] at he
      obtain ⟨a, -, rfl⟩ := he
      exact ⟨fun m => by simp, by simp, by simp⟩
    · have he' := mem_block_frame he
      simp only [frameEvents, List.mem_append, List.mem_cons, List.mem_map,
        List.not_mem_nil, or_false] at he'
      rcases he' with ((rfl | rfl | rfl | rfl | rfl) | ⟨n, -, rfl⟩) | rfl | rfl | rfl | rfl <;>
        exact ⟨fun m => by simp, by simp, by simp⟩
  · intro e he
    simp only [destroyEvents, List.mem_append, List.mem_cons, List.mem_map,
      List.not_mem_nil, or_false] at he
    rcases he with ⟨n, -, rfl⟩ | rfl | rfl | rfl | rfl | rfl | rfl | rfl | rfl | rfl <;>
      exact ⟨_, rfl⟩

/-- C8 witness at `k = 1`. -/
theorem mesh_lifecycle_witness : lifecycleSpec 1 := mesh_lifecycle 1

end Clock2D
